import Mathlib

/-!
Verification of the sign-xpi lambda (`src/apex/functions/sign-xpi/sign_xpi.py`).

The pipeline is embedded shallowly: bytes are `List Nat` (each entry a byte
value), the external collaborators (HTTP via `requests`, S3 via `boto3`, the
`signing_clients` jar extractor, the temporary-file allocator) are supplied as
a `World` of response functions, and each pipeline stage returns its result
together with the list of externally visible effects it performed, in order.
`hashlib.sha256` is embedded as a full executable SHA-256 over byte lists.
-/

deriving instance DecidableEq for Except

namespace SignXpi

/-! ## SHA-256 (embedding of `hashlib.sha256(...).hexdigest()`) -/

def M32 : Nat := 4294967296

def add32 (a b : Nat) : Nat := (a + b) % M32

def xor32 (a b : Nat) : Nat := Nat.xor a b

def and32 (a b : Nat) : Nat := Nat.land a b

def not32 (a : Nat) : Nat := Nat.xor a (M32 - 1)

def rotr32 (n a : Nat) : Nat := ((a >>> n) + ((a <<< (32 - n)) % M32)) % M32

def shr32 (n a : Nat) : Nat := a >>> n

def sigma0 (x : Nat) : Nat := xor32 (rotr32 7 x) (xor32 (rotr32 18 x) (shr32 3 x))

def sigma1 (x : Nat) : Nat := xor32 (rotr32 17 x) (xor32 (rotr32 19 x) (shr32 10 x))

def bigSigma0 (x : Nat) : Nat := xor32 (rotr32 2 x) (xor32 (rotr32 13 x) (rotr32 22 x))

def bigSigma1 (x : Nat) : Nat := xor32 (rotr32 6 x) (xor32 (rotr32 11 x) (rotr32 25 x))

def chFun (x y z : Nat) : Nat := xor32 (and32 x y) (and32 (not32 x) z)

def majFun (x y z : Nat) : Nat := xor32 (and32 x y) (xor32 (and32 x z) (and32 y z))

def sha256K : List Nat :=
  [1116352408, 1899447441, 3049323471, 3921009573, 961987163, 1508970993,
   2453635748, 2870763221, 3624381080, 310598401, 607225278, 1426881987,
   1925078388, 2162078206, 2614888103, 3248222580, 3835390401, 4022224774,
   264347078, 604807628, 770255983, 1249150122, 1555081692, 1996064986,
   2554220882, 2821834349, 2952996808, 3210313671, 3336571891, 3584528711,
   113926993, 338241895, 666307205, 773529912, 1294757372, 1396182291,
   1695183700, 1986661051, 2177026350, 2456956037, 2730485921, 2820302411,
   3259730800, 3345764771, 3516065817, 3600352804, 4094571909, 275423344,
   430227734, 506948616, 659060556, 883997877, 958139571, 1322822218,
   1537002063, 1747873779, 1955562222, 2024104815, 2227730452, 2361852424,
   2428436474, 2756734187, 3204031479, 3329325298]

def sha256H0 : List Nat :=
  [1779033703, 3144134277, 1013904242, 2773480762,
   1359893119, 2600822924, 528734635, 1541459225]

/-- Big-endian byte expansion: `beBytes k v` is the `k`-byte big-endian
representation of `v % 256^k`, most significant byte first. -/
def beBytes : Nat → Nat → List Nat
  | 0, _ => []
  | k + 1, v => beBytes k (v / 256) ++ [v % 256]

/-- SHA-256 padding: append `0x80`, zero bytes up to 56 mod 64, then the
original bit length as an 8-byte big-endian integer. -/
def sha256Pad (msg : List Nat) : List Nat :=
  let len := msg.length
  let zeros := (120 - ((len + 1) % 64)) % 64
  msg ++ [0x80] ++ List.replicate zeros 0 ++ beBytes 8 (8 * len)

/-- Interpret the first `4 * n` bytes of a list as `n` big-endian 32-bit words. -/
def bytesToWords : Nat → List Nat → List Nat
  | 0, _ => []
  | n + 1, l =>
    (l.getD 0 0 * 16777216 + l.getD 1 0 * 65536 + l.getD 2 0 * 256 + l.getD 3 0)
      :: bytesToWords n (l.drop 4)

/-- Split a byte list into consecutive 64-byte blocks (`n` blocks expected). -/
def toBlocks : Nat → List Nat → List (List Nat)
  | 0, _ => []
  | n + 1, l => l.take 64 :: toBlocks n (l.drop 64)

/-- Message-schedule extension: run `n` more steps of
`W[t] = sigma1 W[t-2] + W[t-7] + sigma0 W[t-15] + W[t-16] (mod 2^32)`. -/
def extendSchedule : Nat → List Nat → List Nat
  | 0, ws => ws
  | n + 1, ws =>
    let t := ws.length
    let w := add32 (sigma1 (ws.getD (t - 2) 0))
      (add32 (ws.getD (t - 7) 0)
        (add32 (sigma0 (ws.getD (t - 15) 0)) (ws.getD (t - 16) 0)))
    extendSchedule n (ws ++ [w])

structure Sha256State where
  a : Nat
  b : Nat
  c : Nat
  d : Nat
  e : Nat
  f : Nat
  g : Nat
  h : Nat
deriving DecidableEq

def compressStep (st : Sha256State) (kw : Nat × Nat) : Sha256State :=
  let t1 := add32 st.h (add32 (bigSigma1 st.e)
    (add32 (chFun st.e st.f st.g) (add32 kw.1 kw.2)))
  let t2 := add32 (bigSigma0 st.a) (majFun st.a st.b st.c)
  ⟨add32 t1 t2, st.a, st.b, st.c, add32 st.d t1, st.e, st.f, st.g⟩

def compressBlock (hs : List Nat) (block : List Nat) : List Nat :=
  let ws := extendSchedule 48 (bytesToWords 16 block)
  let st0 : Sha256State :=
    ⟨hs.getD 0 0, hs.getD 1 0, hs.getD 2 0, hs.getD 3 0,
     hs.getD 4 0, hs.getD 5 0, hs.getD 6 0, hs.getD 7 0⟩
  let st := (sha256K.zip ws).foldl compressStep st0
  [add32 (hs.getD 0 0) st.a, add32 (hs.getD 1 0) st.b,
   add32 (hs.getD 2 0) st.c, add32 (hs.getD 3 0) st.d,
   add32 (hs.getD 4 0) st.e, add32 (hs.getD 5 0) st.f,
   add32 (hs.getD 6 0) st.g, add32 (hs.getD 7 0) st.h]

def sha256Words (msg : List Nat) : List Nat :=
  let padded := sha256Pad msg
  (toBlocks (padded.length / 64) padded).foldl compressBlock sha256H0

def hexDigitChar (n : Nat) : Char := "0123456789abcdef".data.getD n '0'

/-- Lowercase hex rendering of a value as `k` hex digits, most significant first. -/
def hexDigits : Nat → Nat → List Char
  | 0, _ => []
  | k + 1, v => hexDigits k (v / 16) ++ [hexDigitChar (v % 16)]

/-- Embedding of `hashlib.sha256(bytes).hexdigest()`: the lowercase hex digest. -/
def sha256hex (msg : List Nat) : String :=
  String.mk ((sha256Words msg).flatMap (hexDigits 8))

/-! ## Python string primitives used by the lambda, over `List Char` -/

/-- Whitespace stripped by Python `str.strip()`. -/
def isPySpace (c : Char) : Bool :=
  c = ' ' ∨ c = '\t' ∨ c = '\n' ∨ c = '\r' ∨ c = '\x0b' ∨ c = '\x0c'

/-- Embedding of Python `str.split(c)` (split on every occurrence). -/
def pySplitChar (c : Char) : List Char → List (List Char)
  | [] => [[]]
  | x :: xs =>
    if x = c then [] :: pySplitChar c xs
    else
      match pySplitChar c xs with
      | h :: t => (x :: h) :: t
      | [] => [[x]]

/-- Split at the first occurrence of `c`; `none` when `c` does not occur
(where Python `split(c, 1)` would return a single-element list). -/
def splitOnceChar (c : Char) : List Char → Option (List Char × List Char)
  | [] => none
  | x :: xs =>
    if x = c then some ([], xs)
    else (splitOnceChar c xs).map (fun p => (x :: p.1, p.2))

/-- Split at the last occurrence of `c`; `none` when `c` does not occur
(where Python `rsplit(c, 1)` would return a single-element list). -/
def rsplitOnceChar (c : Char) (l : List Char) : Option (List Char × List Char) :=
  (splitOnceChar c l.reverse).map (fun p => (p.2.reverse, p.1.reverse))

/-- Embedding of Python `str.strip()`. -/
def trimChars (l : List Char) : List Char :=
  ((l.dropWhile isPySpace).reverse.dropWhile isPySpace).reverse

/-- Embedding of Python `url.strip(c)` for a single strip character. -/
def stripCharEnds (c : Char) (s : String) : String :=
  String.mk (((s.data.dropWhile (· = c)).reverse.dropWhile (· = c)).reverse)

/-- Embedding of Python `str.replace(pat, rep)` (leftmost, non-overlapping),
with explicit fuel so the recursion is structural. -/
def replaceFuel : Nat → List Char → List Char → List Char → List Char
  | 0, _, _, l => l
  | _ + 1, _, _, [] => []
  | fuel + 1, pat, rep, x :: xs =>
    if pat.isPrefixOf (x :: xs) then
      rep ++ replaceFuel fuel pat rep ((x :: xs).drop pat.length)
    else x :: replaceFuel fuel pat rep xs

def pyReplace (l pat rep : List Char) : List Char :=
  replaceFuel (l.length + 1) pat rep l

/-- Embedding of Python 2 `rfc822.unquote`: strips surrounding double quotes
(unescaping backslash pairs and backslash-quote) or surrounding angle
brackets; otherwise returns the string unchanged. -/
def rfc822Unquote (s : String) : String :=
  let l := s.data
  if 1 < l.length then
    if l.head? = some '"' ∧ l.getLast? = some '"' then
      String.mk (pyReplace (pyReplace l.tail.dropLast ['\\', '\\'] ['\\']) ['\\', '"'] ['"'])
    else if l.head? = some '<' ∧ l.getLast? = some '>' then
      String.mk l.tail.dropLast
    else s
  else s

/-- Python truthiness of an optional string (`None` and `""` are falsy). -/
def pyTruthy (o : Option String) : Bool :=
  match o with
  | some s => s ≠ ""
  | none => false

/-- Embedding of the Python expression `a or b` for an optional string `a`
(falls through on `None` and on the empty string). -/
def pyOr (o : Option String) (dflt : String) : String :=
  match o with
  | some s => if s = "" then dflt else s
  | none => dflt

/-! ## Base64 (embedding of `base64.b64encode` / `base64.b64decode`) -/

def b64Alphabet : List Char :=
  "ABCDEFGHIJKLMNOPQRSTUVWXYZabcdefghijklmnopqrstuvwxyz0123456789+/".data

def b64Char (n : Nat) : Char := b64Alphabet.getD n 'A'

def b64encodeChars : List Nat → List Char
  | [] => []
  | [b0] => [b64Char (b0 / 4 % 64), b64Char (b0 % 4 * 16), '=', '=']
  | [b0, b1] =>
    [b64Char (b0 / 4 % 64), b64Char (b0 % 4 * 16 + b1 / 16 % 16),
     b64Char (b1 % 16 * 4), '=']
  | b0 :: b1 :: b2 :: rest =>
    b64Char (b0 / 4 % 64) :: b64Char (b0 % 4 * 16 + b1 / 16 % 16)
      :: b64Char (b1 % 16 * 4 + b2 / 64 % 4) :: b64Char (b2 % 64)
      :: b64encodeChars rest

def b64encode (bs : List Nat) : String := String.mk (b64encodeChars bs)

def b64ValueAux : Nat → List Char → Char → Option Nat
  | _, [], _ => none
  | i, x :: xs, c => if x = c then some i else b64ValueAux (i + 1) xs c

def b64Value (c : Char) : Option Nat := b64ValueAux 0 b64Alphabet c

def b64decodeVals : List Nat → List Nat
  | v0 :: v1 :: v2 :: v3 :: rest =>
    (v0 * 4 + v1 / 16) :: (v1 % 16 * 16 + v2 / 4) :: (v2 % 4 * 64 + v3)
      :: b64decodeVals rest
  | [v0, v1, v2] => [v0 * 4 + v1 / 16, v1 % 16 * 16 + v2 / 4]
  | [v0, v1] => [v0 * 4 + v1 / 16]
  | _ => []

/-- Embedding of `base64.b64decode` on well-padded input: non-alphabet
characters (including the `=` padding) are discarded, then 6-bit groups are
reassembled into bytes. -/
def b64decode (s : String) : List Nat :=
  b64decodeVals (s.data.filterMap b64Value)

/-! ## `os.path.splitext` and `urljoin` -/

def lastIdxOfAux (c : Char) : List Char → Nat → Option Nat → Option Nat
  | [], _, acc => acc
  | x :: xs, i, acc => lastIdxOfAux c xs (i + 1) (if x = c then some i else acc)

def lastIdxOf (c : Char) (l : List Char) : Option Nat := lastIdxOfAux c l 0 none

/-- Embedding of `os.path.splitext` (POSIX rules): split at the last dot of
the basename, unless that dot is part of a run of leading dots. -/
def splitext (p : String) : String × String :=
  let cs := p.data
  let sepIdx := lastIdxOf '/' cs
  match lastIdxOf '.' cs with
  | none => (p, "")
  | some d =>
    let start := match sepIdx with | some s => s + 1 | none => 0
    let dotOk := match sepIdx with | some s => s < d | none => true
    if dotOk && ((cs.drop start).take (d - start)).any (fun c => c ≠ '.') then
      (String.mk (cs.take d), String.mk (cs.drop d))
    else (p, "")

def splitSchemeAux : List Char → Option (List Char × List Char)
  | ':' :: '/' :: '/' :: rest => some ([':', '/', '/'], rest)
  | c :: rest => (splitSchemeAux rest).map (fun p => (c :: p.1, p.2))
  | [] => none

/-- Model of `urljoin(base, ref)` (from `six.moves.urllib.parse`) restricted
to the shape at the call site: `ref` is an absolute path such as
`/sign/data`. Per RFC 3986, the result keeps the scheme and authority of
`base` and replaces its whole path with `ref`; a base without a scheme
yields `ref` itself. -/
def urljoinRooted (base ref : String) : String :=
  match splitSchemeAux base.data with
  | some (pre, rest) => String.mk (pre ++ rest.takeWhile (fun c => c ≠ '/')) ++ ref
  | none => ref

/-! ## Errors raised by the lambda (including raw Python runtime errors) -/

inductive PyError where
  /-- `marshmallow.exceptions.ValidationError` naming the offending fields. -/
  | validationError (fields : List String)
  /-- `requests.HTTPError` from `response.raise_for_status()` on the GET. -/
  | httpError (status : Nat)
  /-- Python `KeyError` from indexing a dict with a missing key. -/
  | keyError (key : String)
  /-- Python `UnboundLocalError`/`NameError`: a local variable referenced
  before assignment. -/
  | nameError (name : String)
  /-- `ChecksumMatchError(url, expected_checksum, actual_checksum)`. -/
  | checksumMismatch (url : String) (expected : String) (actual : String)
  /-- Python `ValueError` (tuple unpacking of a 1-element list). -/
  | valueError (msg : String)
  /-- `requests.HTTPError` from `resp.raise_for_status()` on the signing POST. -/
  | signingHttpError (status : Nat)
deriving DecidableEq

/-! ## Data model: the marshmallow schemas of `sign_xpi.py` -/

/-- Loaded data of the `SourceInfo` schema; every field is optional there
(`url`, `bucket`, `key` carry no `required=True`). -/
structure SourceInfo where
  url : Option String
  bucket : Option String
  key : Option String
deriving DecidableEq

/-- Loaded data of the `SignEvent` schema: `source` is required, `checksum`
is a plain optional `String` field. -/
structure SignEvent where
  source : SourceInfo
  checksum : Option String
deriving DecidableEq

/-- Loaded data of the `AutographInfo` schema (all four fields required). -/
structure AutographInfo where
  hawk_id : String
  hawk_secret : String
  server_url : String
  key_id : String
deriving DecidableEq

/-- Loaded data of the `Context` schema. -/
structure Context where
  autograph : AutographInfo
  output_bucket : String
deriving DecidableEq

/-- Raw (pre-validation) `SignEvent` input: either field may be absent. -/
structure SignEventInput where
  source : Option SourceInfo
  checksum : Option String
deriving DecidableEq

/-- Raw (pre-validation) `AutographInfo` input. -/
structure AutographInput where
  hawkId : Option String
  hawkSecret : Option String
  serverUrl : Option String
  keyId : Option String
deriving DecidableEq

/-- Raw (pre-validation) `Context` input. -/
structure ContextInput where
  autograph : Option AutographInput
  outputBucket : Option String
deriving DecidableEq

/-- Model of the marshmallow `fields.URL()` validator: accepts absolute
http/https URLs (a scheme plus a nonempty remainder). -/
def is_url (s : String) : Bool :=
  ("http://".data.isPrefixOf s.data && decide (7 < s.data.length)) ||
    ("https://".data.isPrefixOf s.data && decide (8 < s.data.length))

/-- Embedding of `SourceInfo.verify_either_url_or_s3_info`: passes when
`url` is truthy, or failing that when `bucket` and `key` are both truthy. -/
def verify_either_url_or_s3_info (d : SourceInfo) : Except PyError Unit :=
  if pyTruthy d.url then .ok ()
  else if pyTruthy d.bucket && pyTruthy d.key then .ok ()
  else .error (.validationError ["url", "bucket", "key"])

/-- Loading the `SourceInfo` schema: the `URL` field validator on `url` when
present, then the schema-level validator. -/
def loadSourceInfo (d : SourceInfo) : Except PyError SourceInfo :=
  match d.url with
  | some u =>
    if is_url u then
      match verify_either_url_or_s3_info d with
      | .ok _ => .ok d
      | .error e => .error e
    else .error (.validationError ["url"])
  | none =>
    match verify_either_url_or_s3_info d with
    | .ok _ => .ok d
    | .error e => .error e

/-- Loading the `SignEvent` schema: `source` is required and validated;
`checksum` is passed through without any check. -/
def loadSignEvent (raw : SignEventInput) : Except PyError SignEvent :=
  match raw.source with
  | none => .error (.validationError ["source"])
  | some s =>
    match loadSourceInfo s with
    | .error e => .error e
    | .ok d => .ok ⟨d, raw.checksum⟩

/-- Loading the `AutographInfo` schema: all four fields required. -/
def loadAutograph (raw : AutographInput) : Except PyError AutographInfo :=
  match raw.hawkId, raw.hawkSecret, raw.serverUrl, raw.keyId with
  | some i, some s, some u, some k => .ok ⟨i, s, u, k⟩
  | _, _, _, _ => .error (.validationError ["autograph"])

/-- Loading the `Context` schema: `autograph` and `outputBucket` required. -/
def loadContext (raw : ContextInput) : Except PyError Context :=
  match raw.autograph, raw.outputBucket with
  | some a, some b =>
    match loadAutograph a with
    | .error e => .error e
    | .ok ai => .ok ⟨ai, b⟩
  | _, _ => .error (.validationError ["autograph", "outputBucket"])

/-! ## External collaborators and observable effects -/

/-- Response of `requests.get(url, stream=True)`: `ok` models
`raise_for_status()` not raising (success status after redirect handling),
`contentDisposition` the `Content-Disposition` header if any, and `body` the
full streamed byte content. -/
structure HttpResponse where
  ok : Bool
  status : Nat
  contentDisposition : Option String
  body : List Nat

/-- The one authenticated POST built by `sign_xpi`: its URL, the Hawk
credentials of the `HawkAuth` on the request, and the single element of the
JSON array body (`input`, `keyid`, `options.id`). -/
structure SignDataRequest where
  url : String
  hawkId : String
  hawkKey : String
  input : String
  keyid : String
  optionsId : String
deriving DecidableEq

/-- Response of the signing POST: `ok` models `resp.raise_for_status()` not
raising; `signature` models `resp.json()[0]['signature']`. -/
structure PostResponse where
  ok : Bool
  status : Nat
  signature : String

/-- Externally visible effects of one invocation, in program order. -/
inductive Effect where
  /-- `requests.get(url, stream=True)`. -/
  | httpGet (url : String)
  /-- `bucket.download_fileobj(key, localfile)`. -/
  | s3Download (bucket : String) (key : String)
  /-- `requests.post(...)` to the Autograph service. -/
  | signPost (req : SignDataRequest)
  /-- `jar_extractor.make_signed(signature, output_file, sigpath=...)`. -/
  | makeSigned (signature : List Nat) (outputFile : String) (sigpath : String)
  /-- `bucket.put_object(Body=..., Key=key)` on the output bucket. -/
  | s3Put (bucket : String) (key : String)
deriving DecidableEq

/-- The external world of one invocation: HTTP responses, S3 object bodies,
the `JarExtractor.signature` manifest digest derived from the staged bytes,
the Autograph response to a request, and the name `tempfile` gave the
staging file. -/
structure World where
  getResponse : String → HttpResponse
  s3Object : String → String → List Nat
  jarSignature : List Nat → List Nat
  postResponse : SignDataRequest → PostResponse
  tmpName : String

/-! ## The pipeline: `retrieve_xpi`, `sign_xpi`, `upload`, `handle` -/

def findFilenameParam : List (List Char) → Except PyError (Option String)
  | [] => .ok none
  | p :: rest =>
    match splitOnceChar '=' (trimChars p) with
    | none => .error (.valueError "need more than 1 value to unpack")
    | some (name, value) =>
      if String.mk name = "filename" then
        .ok (some (rfc822Unquote (String.mk value)))
      else findFilenameParam rest

/-- Embedding of `extract_response_filename`: `ok none` where Python returns
`None`, and a `ValueError` where a parameter without `=` makes the
two-target unpacking fail. -/
def extract_response_filename (contentDisposition : Option String) :
    Except PyError (Option String) :=
  match contentDisposition with
  | none => .ok none
  | some cd =>
    if cd = "" then .ok none
    else
      match pySplitChar ';' cd.data with
      | [] => .ok none
      | p0 :: rest =>
        if String.mk (trimChars p0) = "attachment" then findFilenameParam rest
        else .ok none

/-- Embedding of the checksum check of `retrieve_xpi` (its last lines):
compute `compute_checksum(localfile)`, then compare with
`event['checksum']`. A missing key raises `KeyError`; on mismatch the
`raise ChecksumMatchError(url, ...)` line reads the local variable `url`,
which is unbound when the S3 branch was taken (`urlVar = none`). -/
def verify_checksum (urlVar : Option String) (contents : List Nat)
    (checksum : Option String) : Except PyError Unit :=
  let local_checksum := sha256hex contents
  match checksum with
  | none => .error (.keyError "checksum")
  | some c =>
    if local_checksum ≠ c then
      match urlVar with
      | some u => .error (.checksumMismatch u c local_checksum)
      | none => .error (.nameError "url")
    else .ok ()

/-- Embedding of `retrieve_xpi`: download from the URL (when `source.url` is
truthy) or from S3, derive the filename, then verify the checksum. Returns
the staged bytes and the derived filename, plus the effects performed. -/
def retrieve_xpi (w : World) (event : SignEvent) :
    Except PyError (List Nat × String) × List Effect :=
  let source := event.source
  if pyTruthy source.url then
    let url := source.url.getD ""
    let resp := w.getResponse url
    let tr := [Effect.httpGet url]
    if !resp.ok then (.error (.httpError resp.status), tr)
    else
      match rsplitOnceChar '/' (stripCharEnds '/' url).data with
      | none => (.error (.valueError "need more than 1 value to unpack"), tr)
      | some (_, fname0) =>
        match extract_response_filename resp.contentDisposition with
        | .error e => (.error e, tr)
        | .ok extracted =>
          let filename := pyOr extracted (String.mk fname0)
          match verify_checksum (some url) resp.body event.checksum with
          | .error e => (.error e, tr)
          | .ok _ => (.ok (resp.body, filename), tr)
  else
    match source.bucket, source.key with
    | some b, some k =>
      match rsplitOnceChar '/' k.data with
      | none => (.error (.valueError "need more than 1 value to unpack"), [])
      | some (_, fname) =>
        let contents := w.s3Object b k
        let tr := [Effect.s3Download b k]
        match verify_checksum none contents event.checksum with
        | .error e => (.error e, tr)
        | .ok _ => (.ok (contents, String.mk fname), tr)
    | _, _ => (.error (.keyError "bucket"), [])

/-- Embedding of `get_guid`: a fixed placeholder, independent of the file. -/
def get_guid (_xpiFile : List Nat) : String := "some-fake-guid@example.com"

/-- Embedding of `sign_xpi`: one authenticated POST to
`urljoin(server_url, '/sign/data')`, then on success the base64-decoded
signature is embedded via `make_signed` into a local file whose name is the
staging file's name with `-signed` inserted before its extension. Returns
that local output path. -/
def sign_xpi (w : World) (autograph_info : AutographInfo) (contents : List Nat)
    (guid : String) : Except PyError String × List Effect :=
  let b64_payload := b64encode (w.jarSignature contents)
  let url := urljoinRooted autograph_info.server_url "/sign/data"
  let req : SignDataRequest :=
    ⟨url, autograph_info.hawk_id, autograph_info.hawk_secret, b64_payload,
     autograph_info.key_id, guid⟩
  let resp := w.postResponse req
  let tr := [Effect.signPost req]
  if !resp.ok then (.error (.signingHttpError resp.status), tr)
  else
    let signature := b64decode resp.signature
    let se := splitext w.tmpName
    let output_file := se.1 ++ "-signed" ++ se.2
    (.ok output_file, tr ++ [Effect.makeSigned signature output_file "mozilla.rsa"])

/-- Terminal output of a successful invocation (the `uploaded` object). -/
structure UploadResult where
  bucket : String
  key : String
deriving DecidableEq

/-- Embedding of `upload`: put the signed bytes under `Key=filename` into
the output bucket and return the `uploaded` descriptor. -/
def upload (ctx : Context) (filename : String) :
    Except PyError UploadResult × List Effect :=
  (.ok ⟨ctx.output_bucket, filename⟩, [Effect.s3Put ctx.output_bucket filename])

/-- Embedding of `handle`: validate both inputs, retrieve and verify, sign,
then upload under the filename derived during retrieval. -/
def handle (w : World) (rawEvent : SignEventInput) (rawContext : ContextInput) :
    Except PyError UploadResult × List Effect :=
  match loadSignEvent rawEvent with
  | .error e => (.error e, [])
  | .ok event =>
    match loadContext rawContext with
    | .error e => (.error e, [])
    | .ok ctx =>
      match retrieve_xpi w event with
      | (.error e, tr) => (.error e, tr)
      | (.ok (contents, filename), tr) =>
        let guid := get_guid contents
        match sign_xpi w ctx.autograph contents guid with
        | (.error e, tr2) => (.error e, tr ++ tr2)
        | (.ok _signedXpi, tr2) =>
          match upload ctx filename with
          | (res, tr3) => (res, tr ++ tr2 ++ tr3)

/-! ## Abbreviations used to state properties of `sign_xpi` -/

/-- The request `sign_xpi` builds: `urljoin(server_url, '/sign/data')`, Hawk
credentials, and the single body element. -/
def signReq (w : World) (ai : AutographInfo) (contents : List Nat)
    (guid : String) : SignDataRequest :=
  ⟨urljoinRooted ai.server_url "/sign/data", ai.hawk_id, ai.hawk_secret,
   b64encode (w.jarSignature contents), ai.key_id, guid⟩

/-- The local output path `sign_xpi` passes to `make_signed`: the staging
file's name with `-signed` inserted before its extension. -/
def signedName (w : World) : String :=
  (splitext w.tmpName).1 ++ "-signed" ++ (splitext w.tmpName).2

/-- ASCII lowering of the hex letters, for stating case-insensitive hex
string comparison. -/
def lowerHexChar : Char → Char
  | 'A' => 'a'
  | 'B' => 'b'
  | 'C' => 'c'
  | 'D' => 'd'
  | 'E' => 'e'
  | 'F' => 'f'
  | c => c

/-- Case folding of a hex string (what case-insensitive comparison of hex
digests compares). -/
def hexCaseFold (s : String) : String := String.mk (s.data.map lowerHexChar)

/-! ## Concrete fixtures for witnesses and counterexamples -/

/-- SHA-256 hex digest of the empty byte string. -/
def emptyDigest : String :=
  "e3b0c44298fc1c149afbf4c8996fb92427ae41e4649b934ca495991b7852b855"

/-- The same digest with the hex letters uppercased. -/
def upperDigest : String :=
  "E3B0C44298FC1C149AFBF4C8996FB92427AE41E4649B934CA495991B7852B855"

/-- A 64-digit hex string that is not the digest of the empty byte string. -/
def zeros64 : String :=
  "0000000000000000000000000000000000000000000000000000000000000000"

/-- A benign external world: every GET succeeds with an empty body and no
`Content-Disposition` header, every S3 object is empty, the jar manifest
digest is empty, and the signing service answers with the base64 signature
`c2ln` (bytes 115, 105, 103). -/
def wOk : World where
  getResponse := fun _ => ⟨true, 200, none, []⟩
  s3Object := fun _ _ => []
  jarSignature := fun _ => []
  postResponse := fun _ => ⟨true, 200, "c2ln"⟩
  tmpName := "/tmp/tmpabc123"

/-- `wOk` with a `Content-Disposition: attachment; filename="pkg.xpi"`
header on every GET response. -/
def wCD : World where
  getResponse := fun _ => ⟨true, 200, some "attachment; filename=\"pkg.xpi\"", []⟩
  s3Object := fun _ _ => []
  jarSignature := fun _ => []
  postResponse := fun _ => ⟨true, 200, "c2ln"⟩
  tmpName := "/tmp/tmpabc123"

/-- `wOk` with a signing service that answers 503 to every request. -/
def wBadSign : World where
  getResponse := fun _ => ⟨true, 200, none, []⟩
  s3Object := fun _ _ => []
  jarSignature := fun _ => []
  postResponse := fun _ => ⟨false, 503, ""⟩
  tmpName := "/tmp/tmpabc123"

/-- A URL-variant source descriptor. -/
def srcOk : SourceInfo := ⟨some "http://host/a.xpi", none, none⟩

/-- A well-formed event: URL source, checksum of the empty body. -/
def evOk : SignEventInput := ⟨some srcOk, some emptyDigest⟩

/-- A well-formed execution context. -/
def ctxOk : ContextInput :=
  ⟨some ⟨some "alice", some "sekrit", some "http://localhost:8000/",
    some "extensions-ecdsa"⟩, some "out-bucket"⟩

/-- The request `sign_xpi` issues for `wOk`/`ctxOk` and empty contents. -/
def reqOk : SignDataRequest :=
  ⟨"http://localhost:8000/sign/data", "alice", "sekrit", "",
   "extensions-ecdsa", "some-fake-guid@example.com"⟩

/-- `evOk` with a checksum that does not match the retrieved bytes. -/
def evBad : SignEventInput := ⟨some srcOk, some zeros64⟩

/-- What `ctxOk` loads to. -/
def ctxLoaded : Context :=
  ⟨⟨"alice", "sekrit", "http://localhost:8000/", "extensions-ecdsa"⟩,
   "out-bucket"⟩

/-- The full effect trace of the successful invocation
`handle wOk evOk ctxOk`. -/
def trOkFull : List Effect :=
  [Effect.httpGet "http://host/a.xpi", Effect.signPost reqOk,
   Effect.makeSigned [115, 105, 103] "/tmp/tmpabc123-signed" "mozilla.rsa",
   Effect.s3Put "out-bucket" "a.xpi"]

/-- Recognizer for the signing POST among effects. -/
def isSignPost : Effect → Bool
  | .signPost _ => true
  | _ => false

/-! # Helper lemmas -/

theorem verify_checksum_ok_iff (u : Option String) (contents : List Nat)
    (c : String) :
    verify_checksum u contents (some c) = .ok () ↔ sha256hex contents = c := by
  unfold verify_checksum
  by_cases h : sha256hex contents = c
  · simp [h]
  · cases u <;> simp [h]

theorem verify_checksum_ok_some (u : Option String) (contents : List Nat)
    (cs : Option String) (h : verify_checksum u contents cs = .ok ()) :
    cs = some (sha256hex contents) := by
  cases cs with
  | none => simp [verify_checksum] at h
  | some c => rw [(verify_checksum_ok_iff u contents c).mp h]

theorem retrieve_xpi_ok_checksum (w : World) (ev : SignEvent)
    (contents : List Nat) (fn : String) (tr : List Effect)
    (h : retrieve_xpi w ev = (.ok (contents, fn), tr)) :
    ev.checksum = some (sha256hex contents) := by
  simp only [retrieve_xpi] at h
  split at h
  · split at h
    · simp at h
    · split at h
      · simp at h
      · split at h
        · simp at h
        · split at h
          · simp at h
          · rename_i hv
            simp only [Prod.mk.injEq, Except.ok.injEq] at h
            obtain ⟨⟨hb, -⟩, -⟩ := h
            subst hb
            exact verify_checksum_ok_some _ _ _ hv
  · split at h
    · split at h
      · simp at h
      · split at h
        · simp at h
        · rename_i hv
          simp only [Prod.mk.injEq, Except.ok.injEq] at h
          obtain ⟨⟨hb, -⟩, -⟩ := h
          subst hb
          exact verify_checksum_ok_some _ _ _ hv
    · simp at h

theorem retrieve_xpi_effects (w : World) (ev : SignEvent) (e : Effect)
    (h : e ∈ (retrieve_xpi w ev).2) :
    (∃ u, e = .httpGet u) ∨ ∃ b k, e = .s3Download b k := by
  simp only [retrieve_xpi] at h
  split at h
  · have : e ∈ [Effect.httpGet (ev.source.url.getD "")] := by
      revert h
      repeat' split
      all_goals exact id
    left
    exact ⟨_, by simpa using this⟩
  · split at h
    · rename_i b k hb hk
      split at h
      · simp at h
      · right
        refine ⟨b, k, ?_⟩
        have h2 : e ∈ [Effect.s3Download b k] := by
          revert h
          split
          all_goals exact id
        simpa using h2
    · simp at h

theorem sign_xpi_eq (w : World) (ai : AutographInfo) (contents : List Nat)
    (guid : String) :
    sign_xpi w ai contents guid =
      if (w.postResponse (signReq w ai contents guid)).ok then
        (.ok (signedName w),
         [Effect.signPost (signReq w ai contents guid),
          Effect.makeSigned
            (b64decode (w.postResponse (signReq w ai contents guid)).signature)
            (signedName w) "mozilla.rsa"])
      else
        (.error (.signingHttpError
           (w.postResponse (signReq w ai contents guid)).status),
         [Effect.signPost (signReq w ai contents guid)]) := by
  unfold sign_xpi signReq signedName
  split <;> simp_all

theorem retrieve_no_signPost (w : World) (ev : SignEvent) (r : SignDataRequest)
    (h : Effect.signPost r ∈ (retrieve_xpi w ev).2) : False := by
  rcases retrieve_xpi_effects w ev _ h with ⟨u, hu⟩ | ⟨b, k, hk⟩
  · exact absurd hu (by simp)
  · exact absurd hk (by simp)

theorem retrieve_no_makeSigned (w : World) (ev : SignEvent) (s : List Nat)
    (o p : String) (h : Effect.makeSigned s o p ∈ (retrieve_xpi w ev).2) :
    False := by
  rcases retrieve_xpi_effects w ev _ h with ⟨u, hu⟩ | ⟨b, k, hk⟩
  · exact absurd hu (by simp)
  · exact absurd hk (by simp)

theorem retrieve_no_s3Put (w : World) (ev : SignEvent) (b k : String)
    (h : Effect.s3Put b k ∈ (retrieve_xpi w ev).2) : False := by
  rcases retrieve_xpi_effects w ev _ h with ⟨u, hu⟩ | ⟨b', k', hk⟩
  · exact absurd hu (by simp)
  · exact absurd hk (by simp)

theorem handle_retrieve_error_eq (w : World) (rawEvent : SignEventInput)
    (rawContext : ContextInput) (ev : SignEvent) (ctx : Context)
    (err : PyError) (tr1 : List Effect)
    (hev : loadSignEvent rawEvent = .ok ev)
    (hctx : loadContext rawContext = .ok ctx)
    (hre : retrieve_xpi w ev = (.error err, tr1)) :
    handle w rawEvent rawContext = (.error err, tr1) := by
  simp only [handle, hev, hctx, hre]

theorem handle_ok_eq (w : World) (rawEvent : SignEventInput)
    (rawContext : ContextInput) (ev : SignEvent) (ctx : Context)
    (contents : List Nat) (fn : String) (tr1 : List Effect)
    (hev : loadSignEvent rawEvent = .ok ev)
    (hctx : loadContext rawContext = .ok ctx)
    (hre : retrieve_xpi w ev = (.ok (contents, fn), tr1)) :
    handle w rawEvent rawContext =
      if (w.postResponse (signReq w ctx.autograph contents (get_guid contents))).ok then
        (.ok ⟨ctx.output_bucket, fn⟩,
         tr1 ++ [Effect.signPost (signReq w ctx.autograph contents (get_guid contents)),
           Effect.makeSigned
             (b64decode (w.postResponse
               (signReq w ctx.autograph contents (get_guid contents))).signature)
             (signedName w) "mozilla.rsa"]
           ++ [Effect.s3Put ctx.output_bucket fn])
      else
        (.error (.signingHttpError (w.postResponse
           (signReq w ctx.autograph contents (get_guid contents))).status),
         tr1 ++ [Effect.signPost (signReq w ctx.autograph contents (get_guid contents))]) := by
  simp only [handle, hev, hctx, hre, sign_xpi_eq, upload]
  by_cases hok : (w.postResponse (signReq w ctx.autograph contents (get_guid contents))).ok
  · simp [hok]
  · simp [hok]

theorem handle_signPost_inv (w : World) (rawEvent : SignEventInput)
    (rawContext : ContextInput) (r : SignDataRequest)
    (h : Effect.signPost r ∈ (handle w rawEvent rawContext).2) :
    ∃ ev ctx contents fn tr1,
      loadSignEvent rawEvent = .ok ev ∧ loadContext rawContext = .ok ctx ∧
      retrieve_xpi w ev = (.ok (contents, fn), tr1) ∧
      r = signReq w ctx.autograph contents (get_guid contents) := by
  simp only [handle] at h
  split at h
  · simp at h
  · rename_i ev hev
    split at h
    · simp at h
    · rename_i ctx hctx
      split at h
      · rename_i err tr1 hre
        exact absurd (by rw [hre]; exact h) (fun hm => retrieve_no_signPost w ev r hm)
      · rename_i contents fn tr1 hre
        refine ⟨ev, ctx, contents, fn, tr1, hev, hctx, hre, ?_⟩
        rw [sign_xpi_eq] at h
        have hnot : Effect.signPost r ∉ tr1 := fun hm =>
          retrieve_no_signPost w ev r (by rw [hre]; exact hm)
        cases hok : (w.postResponse (signReq w ctx.autograph contents (get_guid contents))).ok
        · rw [hok] at h
          simp only [Bool.false_eq_true, if_false, upload, List.mem_append,
            List.mem_cons, List.not_mem_nil, or_false] at h
          rcases h with h | h
          · exact absurd h hnot
          · simpa using h
        · rw [hok] at h
          simp only [if_true, upload, List.mem_append, List.mem_cons,
            List.not_mem_nil, or_false] at h
          rcases h with (h | h) | h
          · exact absurd h hnot
          · rcases h with h | h
            · simpa using h
            · simp at h
          · simp at h

theorem compressBlock_length (hs block : List Nat) :
    (compressBlock hs block).length = 8 := by
  simp [compressBlock]

theorem foldl_compressBlock_length (l : List (List Nat)) (hs : List Nat)
    (h : hs.length = 8) : (l.foldl compressBlock hs).length = 8 := by
  induction l generalizing hs with
  | nil => exact h
  | cons b t ih => exact ih _ (compressBlock_length _ _)

theorem sha256Words_length (m : List Nat) : (sha256Words m).length = 8 := by
  unfold sha256Words
  exact foldl_compressBlock_length _ _ (by simp [sha256H0])

theorem hexDigits_length (k v : Nat) : (hexDigits k v).length = k := by
  induction k generalizing v with
  | zero => rfl
  | succ n ih => simp [hexDigits, ih]

theorem flatMap_hexDigits_length (l : List Nat) :
    (l.flatMap (hexDigits 8)).length = 8 * l.length := by
  induction l with
  | nil => rfl
  | cons x t ih =>
    simp only [List.flatMap_cons, List.length_append, hexDigits_length, ih,
      List.length_cons]
    ring

theorem sha256hex_ne_empty (m : List Nat) : sha256hex m ≠ "" := by
  intro h
  have h2 : ((sha256Words m).flatMap (hexDigits 8)).length = 0 := by
    have h3 := congrArg (fun s => s.data.length) h
    simpa [sha256hex] using h3
  rw [flatMap_hexDigits_length, sha256Words_length] at h2
  simp at h2

theorem is_url_ne_empty (v : String) (h : is_url v = true) : v ≠ "" := by
  intro he
  rw [he] at h
  exact absurd h (by decide)

theorem splitOnceChar_append (c : Char) (l1 l2 : List Char) (h : c ∉ l1) :
    splitOnceChar c (l1 ++ c :: l2) = some (l1, l2) := by
  induction l1 with
  | nil => simp [splitOnceChar]
  | cons x xs ih =>
    have hx : ¬x = c := fun he => h (by simp [he])
    have hxs : c ∉ xs := fun hm => h (by simp [hm])
    simp [splitOnceChar, hx, ih hxs]

theorem splitOnceChar_not_mem (c : Char) (l : List Char) (h : c ∉ l) :
    splitOnceChar c l = none := by
  induction l with
  | nil => rfl
  | cons x xs ih =>
    have hx : ¬x = c := fun he => h (by simp [he])
    have hxs : c ∉ xs := fun hm => h (by simp [hm])
    simp [splitOnceChar, hx, ih hxs]

theorem rsplitOnceChar_last (c : Char) (l1 l2 : List Char) (h : c ∉ l2) :
    rsplitOnceChar c (l1 ++ c :: l2) = some (l1, l2) := by
  unfold rsplitOnceChar
  rw [show (l1 ++ c :: l2).reverse = l2.reverse ++ c :: l1.reverse from by
    simp]
  rw [splitOnceChar_append c _ _ (by simpa using h)]
  simp

theorem pySplitChar_not_mem (c : Char) (l : List Char) (h : c ∉ l) :
    pySplitChar c l = [l] := by
  induction l with
  | nil => rfl
  | cons x xs ih =>
    have hx : ¬x = c := fun he => h (by simp [he])
    have hxs : c ∉ xs := fun hm => h (by simp [hm])
    simp [pySplitChar, hx, ih hxs]

theorem pySplitChar_append (c : Char) (l1 l2 : List Char) (h : c ∉ l1) :
    pySplitChar c (l1 ++ c :: l2) = l1 :: pySplitChar c l2 := by
  induction l1 with
  | nil => simp [pySplitChar]
  | cons x xs ih =>
    have hx : ¬x = c := fun he => h (by simp [he])
    have hxs : c ∉ xs := fun hm => h (by simp [hm])
    simp only [List.cons_append, pySplitChar, hx, if_false, List.append_eq]
    rw [ih hxs]

theorem replaceFuel_no (p0 : Char) (pt rep : List Char) (fuel : Nat) :
    ∀ l, p0 ∉ l → replaceFuel fuel (p0 :: pt) rep l = l := by
  induction fuel with
  | zero => intro l _; rfl
  | succ n ih =>
    intro l h
    cases l with
    | nil => rfl
    | cons x xs =>
      have hx : ((p0 :: pt).isPrefixOf (x :: xs)) = false := by
        cases hpe : (p0 :: pt).isPrefixOf (x :: xs)
        · rfl
        · exfalso
          simp only [List.isPrefixOf, Bool.and_eq_true, beq_iff_eq] at hpe
          exact h (by simp [hpe.1])
      have hxs : p0 ∉ xs := fun hm => h (by simp [hm])
      simp only [replaceFuel, hx, Bool.false_eq_true, if_false]
      rw [ih xs hxs]

theorem pyReplace_no (p0 : Char) (pt rep l : List Char) (h : p0 ∉ l) :
    pyReplace l (p0 :: pt) rep = l :=
  replaceFuel_no p0 pt rep (l.length + 1) l h

theorem trimChars_shape (a : List Char) :
    trimChars (' ' :: 'f' :: a ++ ['"']) = 'f' :: a ++ ['"'] := by
  unfold trimChars
  have h1 : isPySpace ' ' = true := rfl
  have h2 : isPySpace 'f' = false := rfl
  have h3 : isPySpace '"' = false := rfl
  rw [show (' ' :: 'f' :: a ++ ['"']).dropWhile isPySpace =
      'f' :: a ++ ['"'] from by
    simp [List.dropWhile_cons, h1, h2]]
  rw [show ('f' :: a ++ ['"']).reverse = '"' :: (a.reverse ++ ['f']) from by
    simp]
  rw [show ('"' :: (a.reverse ++ ['f'])).dropWhile isPySpace =
      '"' :: (a.reverse ++ ['f']) from by
    simp [List.dropWhile_cons, h3]]
  simp

theorem rfc822Unquote_quoted (fname : String) (hbs : '\\' ∉ fname.data) :
    rfc822Unquote (String.mk ('"' :: fname.data ++ ['"'])) = fname := by
  unfold rfc822Unquote
  rw [show (String.mk ('"' :: fname.data ++ ['"'])).data =
      '"' :: fname.data ++ ['"'] from rfl]
  rw [if_pos (by simp)]
  rw [if_pos ?hq]
  case hq =>
    constructor
    · rfl
    · rw [show ('"' :: fname.data ++ ['"']) =
        ('"' :: fname.data) ++ ['"'] from by simp]
      rw [List.getLast?_concat]
  rw [show ('"' :: fname.data ++ ['"']).tail = fname.data ++ ['"'] from rfl]
  rw [show (fname.data ++ ['"']).dropLast = fname.data from by
    simp]
  rw [pyReplace_no '\\' ['\\'] ['\\'] fname.data hbs]
  rw [pyReplace_no '\\' ['"'] ['"'] fname.data hbs]

theorem extract_wellformed_header (fname : String) (hsc : ';' ∉ fname.data)
    (hbs : '\\' ∉ fname.data) :
    extract_response_filename
        (some ("attachment; filename=\"" ++ fname ++ "\"")) =
      .ok (some fname) := by
  have hdata : ("attachment; filename=\"" ++ fname ++ "\"").data =
      "attachment".data ++ ';' ::
        (' ' :: 'f' :: ("ilename=\"".data ++ fname.data) ++ ['"']) := by
    have h1 : ("attachment; filename=\"" ++ fname ++ "\"").data =
        "attachment; filename=\"".data ++ (fname.data ++ "\"".data) := by
      simp
    rw [h1, show "attachment; filename=\"".data =
        "attachment".data ++ ';' :: ' ' :: 'f' :: "ilename=\"".data from by
      decide, show "\"".data = ['"'] from by decide]
    simp
  have hne : ("attachment; filename=\"" ++ fname ++ "\"") ≠ "" := by
    intro h0
    have h2 : ("attachment; filename=\"" ++ fname ++ "\"").data.length = 0 := by
      rw [h0]
      rfl
    rw [hdata] at h2
    simp only [List.length_append, List.length_cons] at h2
    omega
  have hrest : ';' ∉
      (' ' :: 'f' :: ("ilename=\"".data ++ fname.data) ++ ['"']) := by
    intro hm
    rcases List.mem_cons.mp hm with h | hm2
    · exact absurd h (by decide)
    rcases List.mem_cons.mp hm2 with h | hm3
    · exact absurd h (by decide)
    rcases List.mem_append.mp hm3 with hm4 | h
    · rcases List.mem_append.mp hm4 with h | h
      · exact absurd h (by decide)
      · exact hsc h
    · exact absurd (List.mem_singleton.mp h) (by decide)
  have e1 : pySplitChar ';' ("attachment; filename=\"" ++ fname ++ "\"").data =
      "attachment".data ::
        [' ' :: 'f' :: ("ilename=\"".data ++ fname.data) ++ ['"']] := by
    rw [hdata, pySplitChar_append ';' _ _ (by decide),
      pySplitChar_not_mem ';' _ hrest]
  have e2 : trimChars
      (' ' :: 'f' :: ("ilename=\"".data ++ fname.data) ++ ['"']) =
      'f' :: ("ilename=\"".data ++ fname.data) ++ ['"'] :=
    trimChars_shape _
  have e3 : splitOnceChar '='
      ('f' :: ("ilename=\"".data ++ fname.data) ++ ['"']) =
      some ("filename".data, '"' :: fname.data ++ ['"']) := by
    rw [show 'f' :: ("ilename=\"".data ++ fname.data) ++ ['"'] =
        "filename".data ++ '=' :: ('"' :: fname.data ++ ['"']) from by
      rw [show "ilename=\"".data = "ilename".data ++ '=' :: ['"'] from by
        decide, show "filename".data = 'f' :: "ilename".data from by decide]
      simp]
    exact splitOnceChar_append '=' _ _ (by decide)
  simp only [extract_response_filename, if_neg hne, e1,
    if_pos (show String.mk (trimChars "attachment".data) = "attachment" from
      by decide),
    findFilenameParam, e2, e3,
    if_pos (show String.mk "filename".data = "filename" from by decide),
    rfc822Unquote_quoted fname hbs]
  simp

/-! # Claims -/

/-- C3: a signing request is only ever issued after the retrieved bytes'
SHA-256 digest has been computed and found equal to the request's checksum;
and when retrieval fails with a checksum mismatch, the signing, packaging
and publishing stages are unreachable: `handle` returns that error and its
trace contains no signing POST, no `make_signed` call, and no upload. -/
theorem c3_sign_only_after_verified (w : World) (rawEvent : SignEventInput)
    (rawContext : ContextInput) :
    (∀ r, Effect.signPost r ∈ (handle w rawEvent rawContext).2 →
      ∃ ev contents fn tr1, loadSignEvent rawEvent = .ok ev ∧
        retrieve_xpi w ev = (.ok (contents, fn), tr1) ∧
        ev.checksum = some (sha256hex contents)) ∧
    (∀ ev ctx u exp act tr1, loadSignEvent rawEvent = .ok ev →
      loadContext rawContext = .ok ctx →
      retrieve_xpi w ev = (.error (.checksumMismatch u exp act), tr1) →
      handle w rawEvent rawContext = (.error (.checksumMismatch u exp act), tr1) ∧
      (∀ r, Effect.signPost r ∉ (handle w rawEvent rawContext).2) ∧
      (∀ s o p, Effect.makeSigned s o p ∉ (handle w rawEvent rawContext).2) ∧
      (∀ b k, Effect.s3Put b k ∉ (handle w rawEvent rawContext).2)) := by
  constructor
  · intro r hr
    obtain ⟨ev, ctx, contents, fn, tr1, hev, hctx, hre, -⟩ :=
      handle_signPost_inv w rawEvent rawContext r hr
    exact ⟨ev, contents, fn, tr1, hev, hre,
      retrieve_xpi_ok_checksum w ev contents fn tr1 hre⟩
  · intro ev ctx u exp act tr1 hev hctx hre
    have he := handle_retrieve_error_eq w rawEvent rawContext ev ctx _ tr1 hev hctx hre
    refine ⟨he, ?_, ?_, ?_⟩
    · intro r hm
      rw [he] at hm
      exact retrieve_no_signPost w ev r (by rw [hre]; exact hm)
    · intro s o p hm
      rw [he] at hm
      exact retrieve_no_makeSigned w ev s o p (by rw [hre]; exact hm)
    · intro b k hm
      rw [he] at hm
      exact retrieve_no_s3Put w ev b k (by rw [hre]; exact hm)

/-- Witness for C3: on a benign world the signing POST does occur, and its
occurrence yields a successful retrieval whose digest equals the supplied
checksum; on a mismatching checksum no signing POST happens at all. -/
theorem c3_witness :
    (Effect.signPost reqOk ∈ (handle wOk evOk ctxOk).2 ∧
      ∃ ev contents fn tr1, loadSignEvent evOk = .ok ev ∧
        retrieve_xpi wOk ev = (.ok (contents, fn), tr1) ∧
        ev.checksum = some (sha256hex contents)) ∧
    (loadSignEvent evBad = .ok ⟨srcOk, some zeros64⟩ ∧
      loadContext ctxOk = .ok ctxLoaded ∧
      retrieve_xpi wOk ⟨srcOk, some zeros64⟩ =
        (.error (.checksumMismatch "http://host/a.xpi" zeros64 emptyDigest),
         [Effect.httpGet "http://host/a.xpi"]) ∧
      ∀ r, Effect.signPost r ∉ (handle wOk evBad ctxOk).2) := by
  refine ⟨⟨by decide,
    (c3_sign_only_after_verified wOk evOk ctxOk).1 reqOk (by decide)⟩,
    by decide, by decide, by decide, ?_⟩
  exact ((c3_sign_only_after_verified wOk evBad ctxOk).2 ⟨srcOk, some zeros64⟩
    ctxLoaded "http://host/a.xpi" zeros64 emptyDigest
    [Effect.httpGet "http://host/a.xpi"] (by decide) (by decide) (by decide)).2.1

/-- C7: when the signing authority's response to the issued request is a
failure, the invocation fails with a signing-service error and neither
`make_signed` (signature embedding) nor the upload is ever invoked. -/
theorem c7_signing_failure_halts (w : World) (rawEvent : SignEventInput)
    (rawContext : ContextInput) (r : SignDataRequest)
    (hmem : Effect.signPost r ∈ (handle w rawEvent rawContext).2)
    (hbad : (w.postResponse r).ok = false) :
    (handle w rawEvent rawContext).1 =
      .error (.signingHttpError (w.postResponse r).status) ∧
    (∀ s o p, Effect.makeSigned s o p ∉ (handle w rawEvent rawContext).2) ∧
    (∀ b k, Effect.s3Put b k ∉ (handle w rawEvent rawContext).2) := by
  obtain ⟨ev, ctx, contents, fn, tr1, hev, hctx, hre, hr⟩ :=
    handle_signPost_inv w rawEvent rawContext r hmem
  subst hr
  have he := handle_ok_eq w rawEvent rawContext ev ctx contents fn tr1 hev hctx hre
  rw [hbad] at he
  simp only [Bool.false_eq_true, if_false] at he
  refine ⟨by rw [he], ?_, ?_⟩
  · intro s o p hm
    rw [he] at hm
    simp only [List.mem_append, List.mem_cons, List.not_mem_nil, or_false] at hm
    rcases hm with hm | hm
    · exact retrieve_no_makeSigned w ev s o p (by rw [hre]; exact hm)
    · simp at hm
  · intro b k hm
    rw [he] at hm
    simp only [List.mem_append, List.mem_cons, List.not_mem_nil, or_false] at hm
    rcases hm with hm | hm
    · exact retrieve_no_s3Put w ev b k (by rw [hre]; exact hm)
    · simp at hm

/-- Witness for C7: with a signing service that answers 503, the signing
POST occurs, and the invocation ends in a signing-service error with no
`make_signed` call and no upload in the trace. -/
theorem c7_witness :
    (Effect.signPost reqOk ∈ (handle wBadSign evOk ctxOk).2 ∧
      (wBadSign.postResponse reqOk).ok = false) ∧
    (handle wBadSign evOk ctxOk).1 = .error (.signingHttpError 503) ∧
    (∀ s o p, Effect.makeSigned s o p ∉ (handle wBadSign evOk ctxOk).2) := by
  refine ⟨⟨by decide, by decide⟩, ?_, ?_⟩
  · exact (c7_signing_failure_halts wBadSign evOk ctxOk reqOk (by decide)
      (by decide)).1
  · exact (c7_signing_failure_halts wBadSign evOk ctxOk reqOk (by decide)
      (by decide)).2.1

/-- C1 counterexample: a successful URL invocation for `.../a.xpi` returns
the uploaded key `a.xpi`, not `a-signed.xpi` — the `-signed` suffix never
reaches the uploaded key (it only lands in the local staging path). -/
theorem c1_counterexample :
    (handle wOk evOk ctxOk).1 = .ok ⟨"out-bucket", "a.xpi"⟩ ∧
    "a.xpi" ≠ "a-signed.xpi" := by decide

/-- C1 (amended): for every successful invocation the key of the returned
`UploadResult` is the filename derived during retrieval, unchanged; the
`-signed` suffix is instead inserted into the local output path handed to
`make_signed` — the staging file's name with `-signed` before its
extension. -/
theorem c1_upload_key (w : World) (rawEvent : SignEventInput)
    (rawContext : ContextInput) (u : UploadResult) (tr : List Effect)
    (hh : handle w rawEvent rawContext = (.ok u, tr)) :
    ∃ ev ctx contents tr1,
      loadSignEvent rawEvent = .ok ev ∧ loadContext rawContext = .ok ctx ∧
      retrieve_xpi w ev = (.ok (contents, u.key), tr1) ∧
      u.bucket = ctx.output_bucket ∧
      (∃ s, Effect.makeSigned s (signedName w) "mozilla.rsa" ∈ tr) ∧
      Effect.s3Put u.bucket u.key ∈ tr := by
  simp only [handle] at hh
  split at hh
  · simp at hh
  · rename_i ev hev
    split at hh
    · simp at hh
    · rename_i ctx hctx
      split at hh
      · simp at hh
      · rename_i contents fn tr1 hre
        rw [sign_xpi_eq] at hh
        cases hok : (w.postResponse (signReq w ctx.autograph contents (get_guid contents))).ok
        · rw [hok] at hh
          simp at hh
        · rw [hok] at hh
          simp only [if_true, upload, Prod.mk.injEq, Except.ok.injEq] at hh
          obtain ⟨hu, htr⟩ := hh
          subst hu
          subst htr
          refine ⟨ev, ctx, contents, tr1, hev, hctx, hre, rfl,
            ⟨b64decode (w.postResponse
              (signReq w ctx.autograph contents (get_guid contents))).signature, ?_⟩, ?_⟩
          · simp
          · simp

/-- Witness for C1 (amended): the concrete successful invocation, with the
uploaded key equal to the retrieval-derived filename and the `-signed` path
only inside the `make_signed` effect. -/
theorem c1_witness :
    handle wOk evOk ctxOk = (.ok ⟨"out-bucket", "a.xpi"⟩, trOkFull) ∧
    ∃ ev ctx contents tr1,
      loadSignEvent evOk = .ok ev ∧ loadContext ctxOk = .ok ctx ∧
      retrieve_xpi wOk ev = (.ok (contents, "a.xpi"), tr1) ∧
      "out-bucket" = ctx.output_bucket ∧
      (∃ s, Effect.makeSigned s (signedName wOk) "mozilla.rsa" ∈ trOkFull) ∧
      Effect.s3Put "out-bucket" "a.xpi" ∈ trOkFull := by
  refine ⟨by decide, ?_⟩
  exact c1_upload_key wOk evOk ctxOk ⟨"out-bucket", "a.xpi"⟩ trOkFull (by decide)

/-- C2 counterexample: the integrity check is case-sensitive, not
case-insensitive. For the empty staged package and the uppercase rendering
of its digest the two hex strings are equal case-insensitively, yet
retrieval fails with a `ChecksumMatchError` instead of succeeding. -/
theorem c2_counterexample :
    (retrieve_xpi wOk ⟨srcOk, some upperDigest⟩).1 =
      .error (.checksumMismatch "http://host/a.xpi" upperDigest emptyDigest) ∧
    hexCaseFold upperDigest = hexCaseFold emptyDigest ∧
    upperDigest ≠ emptyDigest := by decide

/-- C2 (amended): the integrity check succeeds iff the lowercase hex
SHA-256 digest of the package bytes equals the supplied checksum exactly,
by case-sensitive string comparison; any differing character — including a
mere case difference — yields a `ChecksumMatchError` carrying the expected
and the actual digest, and a successful retrieval implies exact digest
equality. -/
theorem c2_checksum_exact (u : String) (contents : List Nat) (c : String) :
    (verify_checksum (some u) contents (some c) = .ok () ↔
      sha256hex contents = c) ∧
    (sha256hex contents ≠ c →
      verify_checksum (some u) contents (some c) =
        .error (.checksumMismatch u c (sha256hex contents))) ∧
    (∀ w ev contents2 fn tr, retrieve_xpi w ev = (.ok (contents2, fn), tr) →
      ev.checksum = some (sha256hex contents2)) := by
  refine ⟨verify_checksum_ok_iff _ _ _, ?_, ?_⟩
  · intro hne
    unfold verify_checksum
    simp [hne]
  · intro w ev contents2 fn tr h
    exact retrieve_xpi_ok_checksum w ev contents2 fn tr h

/-- Witness for C2 (amended): the uppercase digest differs from the
computed lowercase digest, so verification reports a mismatch carrying
both digests. -/
theorem c2_witness :
    sha256hex [] ≠ upperDigest ∧
    verify_checksum (some "http://host/a.xpi") [] (some upperDigest) =
      .error (.checksumMismatch "http://host/a.xpi" upperDigest emptyDigest) := by
  refine ⟨by decide, ?_⟩
  have h := (c2_checksum_exact "http://host/a.xpi" [] upperDigest).2.1 (by decide)
  rw [show sha256hex [] = emptyDigest from by decide] at h
  exact h

/-- C4 counterexample: a source descriptor with both the URL and a complete
bucket/key pair populated passes validation — the URL short-circuits the
schema check — contradicting that presence of both variants simultaneously
is a validation failure. -/
theorem c4_counterexample :
    loadSourceInfo
        ⟨some "http://host/a.xpi", some "mybucket", some "addons/pkg.xpi"⟩ =
      .ok ⟨some "http://host/a.xpi", some "mybucket", some "addons/pkg.xpi"⟩ ∧
    pyTruthy (some "http://host/a.xpi") = true ∧
    pyTruthy (some "mybucket") = true ∧
    pyTruthy (some "addons/pkg.xpi") = true := by decide

/-- C4 (amended): for descriptors whose URL, when present, is well-formed,
validation succeeds iff the URL is truthy or both bucket and key are
truthy: absence of both variants and a partial StoredObject fail, but both
variants populated simultaneously is accepted (the URL variant wins). -/
theorem c4_validation_iff (d : SourceInfo)
    (hurl : ∀ v, d.url = some v → is_url v = true) :
    (∃ r, loadSourceInfo d = .ok r) ↔
      (pyTruthy d.url = true ∨
        (pyTruthy d.bucket = true ∧ pyTruthy d.key = true)) := by
  cases hd : d.url with
  | none =>
    have hu0 : pyTruthy (none : Option String) = false := rfl
    simp only [loadSourceInfo, hd, verify_either_url_or_s3_info, hu0,
      Bool.false_eq_true, if_false, false_or]
    cases hbk : pyTruthy d.bucket && pyTruthy d.key
    · simp only [hbk, Bool.false_eq_true, if_false]
      constructor
      · rintro ⟨r, hr⟩
        simp at hr
      · rintro ⟨hb, hk⟩
        rw [hb, hk] at hbk
        simp at hbk
    · simp only [hbk, if_true]
      rw [Bool.and_eq_true] at hbk
      exact ⟨fun _ => hbk, fun _ => ⟨d, rfl⟩⟩
  | some v =>
    have hv := hurl v hd
    have hne : v ≠ "" := is_url_ne_empty v hv
    have hu1 : pyTruthy (some v) = true := by simp [pyTruthy, hne]
    simp only [loadSourceInfo, hd, hv, verify_either_url_or_s3_info, hu1,
      eq_self_iff_true, if_true, true_or, iff_true]
    exact ⟨d, rfl⟩

/-- Witness for C4 (amended): a pure StoredObject descriptor (no URL)
validates successfully. -/
theorem c4_witness :
    (∀ v, (SourceInfo.mk none (some "mybucket") (some "addons/pkg.xpi")).url =
      some v → is_url v = true) ∧
    ∃ r, loadSourceInfo ⟨none, some "mybucket", some "addons/pkg.xpi"⟩ =
      .ok r := by
  refine ⟨by simp, ?_⟩
  exact (c4_validation_iff ⟨none, some "mybucket", some "addons/pkg.xpi"⟩
    (by simp)).mpr (Or.inr ⟨by decide, by decide⟩)

/-- C5 counterexample: an event with a valid source and no checksum at all
— and likewise one with an empty checksum — passes validation; no
`ValidationError` is raised for the checksum field. -/
theorem c5_counterexample :
    loadSignEvent ⟨some srcOk, none⟩ = .ok ⟨srcOk, none⟩ ∧
    loadSignEvent ⟨some srcOk, some ""⟩ = .ok ⟨srcOk, some ""⟩ := by decide

/-- C5 (amended): the checksum field is optional and unvalidated: loading
checks only the source; a missing checksum surfaces only at the
post-download comparison as a `KeyError` (an empty one as a
`ChecksumMatchError`), after the retrieval I/O has already been performed,
never as a `ValidationError` before I/O. -/
theorem c5_checksum_unvalidated (src : SourceInfo) (cs : Option String)
    (w : World) :
    (loadSignEvent ⟨some src, cs⟩ =
      (loadSourceInfo src).map (fun d => ⟨d, cs⟩)) ∧
    (∀ uv contents, verify_checksum uv contents none =
      .error (.keyError "checksum")) ∧
    (∀ u contents, verify_checksum (some u) contents (some "") =
      .error (.checksumMismatch u "" (sha256hex contents))) ∧
    (∀ ev, pyTruthy ev.source.url = true →
      Effect.httpGet (ev.source.url.getD "") ∈ (retrieve_xpi w ev).2) ∧
    (∀ ev x, ev.checksum = none → (retrieve_xpi w ev).1 ≠ .ok x) := by
  refine ⟨?_, fun uv contents => rfl, ?_, ?_, ?_⟩
  · cases hsrc : loadSourceInfo src <;> simp [loadSignEvent, hsrc, Except.map]
  · intro u contents
    unfold verify_checksum
    simp [sha256hex_ne_empty contents]
  · intro ev h
    simp only [retrieve_xpi, h, if_true]
    repeat' split
    all_goals simp
  · intro ev x hcs h
    have h2 : retrieve_xpi w ev = (Except.ok (x.1, x.2), (retrieve_xpi w ev).2) :=
      Prod.ext h rfl
    have h3 := retrieve_xpi_ok_checksum w ev x.1 x.2 _ h2
    rw [hcs] at h3
    exact Option.noConfusion h3

/-- Witness for C5 (amended): concrete event with a URL source and a
missing checksum: validation passes it through, the GET is performed, and
retrieval cannot succeed. -/
theorem c5_witness :
    loadSignEvent ⟨some srcOk, none⟩ =
      (loadSourceInfo srcOk).map (fun d => ⟨d, none⟩) ∧
    (pyTruthy ((SignEvent.mk srcOk none).source.url) = true ∧
      Effect.httpGet "http://host/a.xpi" ∈
        (retrieve_xpi wOk ⟨srcOk, none⟩).2) ∧
    ((SignEvent.mk srcOk none).checksum = none ∧
      (retrieve_xpi wOk ⟨srcOk, none⟩).1 ≠ .ok ([], "a.xpi")) := by
  refine ⟨(c5_checksum_unvalidated srcOk none wOk).1, ⟨by decide, ?_⟩,
    by decide, ?_⟩
  · exact (c5_checksum_unvalidated srcOk none wOk).2.2.2.1 ⟨srcOk, none⟩ (by decide)
  · exact (c5_checksum_unvalidated srcOk none wOk).2.2.2.2 ⟨srcOk, none⟩
      ([], "a.xpi") rfl

/-- C6 (code bug): on the StoredObject path a checksum mismatch raises an
unbound-local error for the variable `url` — which is only assigned on the
URL path — instead of the intended `ChecksumMatchError`; on the RemoteURL
path the `ChecksumMatchError` does carry the source descriptor and both
digests. -/
theorem c6_s3_mismatch_unbound_url :
    retrieve_xpi wOk
        ⟨⟨none, some "mybucket", some "addons/pkg.xpi"⟩, some zeros64⟩ =
      (.error (.nameError "url"),
       [Effect.s3Download "mybucket" "addons/pkg.xpi"]) ∧
    retrieve_xpi wOk ⟨srcOk, some zeros64⟩ =
      (.error (.checksumMismatch "http://host/a.xpi" zeros64 emptyDigest),
       [Effect.httpGet "http://host/a.xpi"]) := by decide

/-- C8 counterexample: for a serviceURL with a non-root path the POST URL
is not the serviceURL extended with `/sign/data`: `urljoin` against the
rooted reference path drops the base path. -/
theorem c8_counterexample :
    (sign_xpi wOk ⟨"alice", "sekrit", "http://host/api", "kid"⟩ [] "guid").2 =
      [Effect.signPost
         ⟨"http://host/sign/data", "alice", "sekrit", "", "kid", "guid"⟩,
       Effect.makeSigned [115, 105, 103] "/tmp/tmpabc123-signed"
         "mozilla.rsa"] ∧
    "http://host/sign/data" ≠ "http://host/api" ++ "/sign/data" := by decide

/-- C8 (amended): the signing client issues exactly one authenticated POST,
whose URL is the resolution of the absolute path `/sign/data` against the
configured serviceURL (scheme and authority preserved, the base path
replaced), whose body is the single element with `input` the
base64-encoded payload digest, `keyid` the configured key id and
`options.id` the package identity, and which carries the Hawk credentials;
on a successful response the raw signature handed to `make_signed` is the
base64-decoding of the first response element's `signature` field. -/
theorem c8_sign_request_shape (w : World) (ai : AutographInfo)
    (contents : List Nat) (guid : String) :
    signReq w ai contents guid =
      ⟨urljoinRooted ai.server_url "/sign/data", ai.hawk_id, ai.hawk_secret,
       b64encode (w.jarSignature contents), ai.key_id, guid⟩ ∧
    (sign_xpi w ai contents guid).2.filter isSignPost =
      [Effect.signPost (signReq w ai contents guid)] ∧
    (∀ r, Effect.signPost r ∈ (sign_xpi w ai contents guid).2 →
      r = signReq w ai contents guid) ∧
    ((w.postResponse (signReq w ai contents guid)).ok = true →
      Effect.makeSigned
        (b64decode (w.postResponse (signReq w ai contents guid)).signature)
        (signedName w) "mozilla.rsa" ∈ (sign_xpi w ai contents guid).2) := by
  refine ⟨rfl, ?_, ?_, ?_⟩
  · rw [sign_xpi_eq]
    cases hok : (w.postResponse (signReq w ai contents guid)).ok <;>
      simp [hok, isSignPost, List.filter]
  · intro r hr
    rw [sign_xpi_eq] at hr
    cases hok : (w.postResponse (signReq w ai contents guid)).ok <;>
      rw [hok] at hr <;> simpa using hr
  · intro hok
    rw [sign_xpi_eq, hok]
    simp

/-- Witness for C8 (amended): on the benign world the single signing POST
is issued and the decoded signature bytes reach `make_signed`. -/
theorem c8_witness :
    (wOk.postResponse (signReq wOk ctxLoaded.autograph [] "guid")).ok = true ∧
    (sign_xpi wOk ctxLoaded.autograph [] "guid").2.filter isSignPost =
      [Effect.signPost (signReq wOk ctxLoaded.autograph [] "guid")] ∧
    Effect.makeSigned [115, 105, 103] (signedName wOk) "mozilla.rsa" ∈
      (sign_xpi wOk ctxLoaded.autograph [] "guid").2 := by
  refine ⟨by decide,
    (c8_sign_request_shape wOk ctxLoaded.autograph [] "guid").2.1, ?_⟩
  have h := (c8_sign_request_shape wOk ctxLoaded.autograph [] "guid").2.2.2
    (by decide)
  rw [show b64decode (wOk.postResponse
      (signReq wOk ctxLoaded.autograph [] "guid")).signature = [115, 105, 103]
    from by decide] at h
  exact h

/-- C9 counterexample: for a StoredObject whose key contains no `/`, the
filename is not the last path segment (`pkg.xpi`); the two-target
unpacking of `rsplit` fails instead, before the object is even fetched
(the effect trace is empty). -/
theorem c9_counterexample :
    retrieve_xpi wOk ⟨⟨none, some "mybucket", some "pkg.xpi"⟩,
        some emptyDigest⟩ =
      (.error (.valueError "need more than 1 value to unpack"), []) := by
  decide

/-- C9 (amended): for RemoteURL retrievals the filename is taken from a
well-formed `attachment; filename="..."` Content-Disposition header with
RFC 822 unquoting; when the header is absent it is the last path segment
of the URL; for StoredObject retrievals it is the last path segment of the
key when the key contains a `/`, while a key without `/` fails with an
unpacking error before the object is fetched. -/
theorem c9_filename_derivation :
    (∀ fname : String, ';' ∉ fname.data → '\\' ∉ fname.data →
      extract_response_filename
        (some ("attachment; filename=\"" ++ fname ++ "\"")) =
          .ok (some fname)) ∧
    extract_response_filename none = .ok none ∧
    retrieve_xpi wCD ⟨srcOk, some emptyDigest⟩ =
      (.ok ([], "pkg.xpi"), [Effect.httpGet "http://host/a.xpi"]) ∧
    retrieve_xpi wOk ⟨⟨some "http://host/foo/bar.xpi", none, none⟩,
        some emptyDigest⟩ =
      (.ok ([], "bar.xpi"), [Effect.httpGet "http://host/foo/bar.xpi"]) ∧
    (∀ l1 l2 : List Char, '/' ∉ l2 →
      rsplitOnceChar '/' (l1 ++ '/' :: l2) = some (l1, l2)) ∧
    retrieve_xpi wOk ⟨⟨none, some "mybucket", some "addons/pkg.xpi"⟩,
        some emptyDigest⟩ =
      (.ok ([], "pkg.xpi"),
       [Effect.s3Download "mybucket" "addons/pkg.xpi"]) :=
  ⟨extract_wellformed_header, rfl, by decide, by decide,
   rsplitOnceChar_last '/', by decide⟩

/-- Witness for C9 (amended): the quoted-header rule at `pkg.xpi` and the
last-segment rule at `addons/pkg.xpi`. -/
theorem c9_witness :
    (';' ∉ "pkg.xpi".data ∧ '\\' ∉ "pkg.xpi".data ∧
      extract_response_filename
        (some ("attachment; filename=\"" ++ "pkg.xpi" ++ "\"")) =
          .ok (some "pkg.xpi")) ∧
    ('/' ∉ "pkg.xpi".data ∧
      rsplitOnceChar '/' ("addons".data ++ '/' :: "pkg.xpi".data) =
        some ("addons".data, "pkg.xpi".data)) := by
  refine ⟨⟨by decide, by decide, ?_⟩, by decide, ?_⟩
  · exact c9_filename_derivation.1 "pkg.xpi" (by decide) (by decide)
  · exact c9_filename_derivation.2.2.2.2.1 "addons".data "pkg.xpi".data
      (by decide)

theorem retrieve_xpi_url_branch (w : World) (url : String)
    (b1 k1 b2 k2 : Option String) (cs : Option String)
    (h : pyTruthy (some url) = true) :
    retrieve_xpi w ⟨⟨some url, b1, k1⟩, cs⟩ =
      retrieve_xpi w ⟨⟨some url, b2, k2⟩, cs⟩ := by
  simp [retrieve_xpi, h]

theorem retrieve_xpi_url_trace (w : World) (url : String)
    (b k : Option String) (cs : Option String)
    (h : pyTruthy (some url) = true) :
    (retrieve_xpi w ⟨⟨some url, b, k⟩, cs⟩).2 = [Effect.httpGet url] := by
  simp only [retrieve_xpi, h, if_true]
  repeat' split
  all_goals rfl

theorem handle_effects (w : World) (rawEvent : SignEventInput)
    (rawContext : ContextInput) (e : Effect)
    (h : e ∈ (handle w rawEvent rawContext).2) :
    (∃ ev, loadSignEvent rawEvent = .ok ev ∧ e ∈ (retrieve_xpi w ev).2) ∨
    (∃ r, e = .signPost r) ∨ (∃ s o p, e = .makeSigned s o p) ∨
    (∃ b k, e = .s3Put b k) := by
  simp only [handle] at h
  split at h
  · simp at h
  · rename_i ev hev
    split at h
    · simp at h
    · rename_i ctx hctx
      split at h
      · rename_i err tr1 hre
        exact Or.inl ⟨ev, hev, by rw [hre]; exact h⟩
      · rename_i contents fn tr1 hre
        rw [sign_xpi_eq] at h
        cases hok : (w.postResponse
            (signReq w ctx.autograph contents (get_guid contents))).ok
        · rw [hok] at h
          simp only [Bool.false_eq_true, if_false, upload, List.mem_append,
            List.mem_cons, List.not_mem_nil, or_false] at h
          rcases h with h | h
          · exact Or.inl ⟨ev, hev, by rw [hre]; exact h⟩
          · exact Or.inr (Or.inl ⟨_, h⟩)
        · rw [hok] at h
          simp only [if_true, upload, List.mem_append, List.mem_cons,
            List.not_mem_nil, or_false] at h
          rcases h with (h | h) | h
          · exact Or.inl ⟨ev, hev, by rw [hre]; exact h⟩
          · rcases h with h | h
            · exact Or.inr (Or.inl ⟨_, h⟩)
            · exact Or.inr (Or.inr (Or.inl ⟨_, _, _, h⟩))
          · exact Or.inr (Or.inr (Or.inr ⟨_, _, h⟩))

theorem handle_trace_prefix (w : World) (rawEvent : SignEventInput)
    (rawContext : ContextInput) (ev : SignEvent) (ctx : Context)
    (hev : loadSignEvent rawEvent = .ok ev)
    (hctx : loadContext rawContext = .ok ctx) (e : Effect)
    (he : e ∈ (retrieve_xpi w ev).2) :
    e ∈ (handle w rawEvent rawContext).2 := by
  rcases hre : retrieve_xpi w ev with ⟨res, tr1⟩
  rw [hre] at he
  cases res with
  | error err =>
    rw [handle_retrieve_error_eq w rawEvent rawContext ev ctx err tr1 hev hctx
      hre]
    exact he
  | ok val =>
    rcases val with ⟨contents, fn⟩
    rw [handle_ok_eq w rawEvent rawContext ev ctx contents fn tr1 hev hctx hre]
    cases hok : (w.postResponse
        (signReq w ctx.autograph contents (get_guid contents))).ok
    · simp [he]
    · simp [he]

/-- C10: when the URL variant is populated with a well-formed URL, the
bucket and key fields have no effect on the invocation: the whole outcome
(result and effect trace) is unchanged under any replacement of bucket and
key, no S3 download ever occurs, and retrieval uses the URL (its GET is in
the trace whenever the execution context loads). -/
theorem c10_url_precedence (w : World) (url : String)
    (b1 k1 b2 k2 : Option String) (cs : Option String)
    (rawContext : ContextInput) (hu : is_url url = true) :
    handle w ⟨some ⟨some url, b1, k1⟩, cs⟩ rawContext =
      handle w ⟨some ⟨some url, b2, k2⟩, cs⟩ rawContext ∧
    (∀ b k, Effect.s3Download b k ∉
      (handle w ⟨some ⟨some url, b1, k1⟩, cs⟩ rawContext).2) ∧
    (∀ ctx, loadContext rawContext = .ok ctx →
      Effect.httpGet url ∈
        (handle w ⟨some ⟨some url, b1, k1⟩, cs⟩ rawContext).2) := by
  have hpy : pyTruthy (some url) = true := by
    simp [pyTruthy, is_url_ne_empty url hu]
  have hld : ∀ b k : Option String,
      loadSignEvent ⟨some ⟨some url, b, k⟩, cs⟩ =
        .ok ⟨⟨some url, b, k⟩, cs⟩ := by
    intro b k
    simp [loadSignEvent, loadSourceInfo, hu, verify_either_url_or_s3_info, hpy]
  refine ⟨?_, ?_, ?_⟩
  · simp only [handle, hld b1 k1, hld b2 k2]
    cases hctx : loadContext rawContext with
    | error e => rfl
    | ok ctx =>
      rw [retrieve_xpi_url_branch w url b1 k1 none none cs hpy,
          retrieve_xpi_url_branch w url b2 k2 none none cs hpy]
  · intro b k hm
    rcases handle_effects w _ rawContext _ hm with
      ⟨ev, hev, hm2⟩ | ⟨r, he⟩ | ⟨s, o, p, he⟩ | ⟨b', k', he⟩
    · rw [hld b1 k1] at hev
      injection hev with hev
      subst hev
      rw [retrieve_xpi_url_trace w url b1 k1 cs hpy] at hm2
      simp at hm2
    · simp at he
    · simp at he
    · simp at he
  · intro ctx hctx
    exact handle_trace_prefix w _ rawContext ⟨⟨some url, b1, k1⟩, cs⟩ ctx
      (hld b1 k1) hctx _
      (by rw [retrieve_xpi_url_trace w url b1 k1 cs hpy]; simp)

/-- Witness for C10: with both variants populated, replacing bucket and key
by nothing leaves the whole invocation unchanged, and the GET appears in
the trace. -/
theorem c10_witness :
    is_url "http://host/a.xpi" = true ∧
    handle wOk ⟨some ⟨some "http://host/a.xpi", some "mybucket",
        some "addons/pkg.xpi"⟩, some emptyDigest⟩ ctxOk =
      handle wOk ⟨some ⟨some "http://host/a.xpi", none, none⟩,
        some emptyDigest⟩ ctxOk ∧
    Effect.httpGet "http://host/a.xpi" ∈
      (handle wOk ⟨some ⟨some "http://host/a.xpi", some "mybucket",
        some "addons/pkg.xpi"⟩, some emptyDigest⟩ ctxOk).2 := by
  refine ⟨by decide, ?_, ?_⟩
  · exact (c10_url_precedence wOk "http://host/a.xpi" (some "mybucket")
      (some "addons/pkg.xpi") none none (some emptyDigest) ctxOk (by decide)).1
  · exact (c10_url_precedence wOk "http://host/a.xpi" (some "mybucket")
      (some "addons/pkg.xpi") none none (some emptyDigest) ctxOk
      (by decide)).2.2 ctxLoaded (by decide)

end SignXpi
